import Mathlib

/-!
Verification development for the jump-SSE solver (`jssesolve`) of the dynamiqs
repository: array-shape batching semantics, trajectory vectorization, smart
sampling, argument checking, gradient-support checking, method attribute
delegation, time-dependent operator algebra, and the gradient test harness.

Shapes of arrays are modelled as lists of natural numbers (leading dimension
first). Scalar numeric data is modelled over `ℚ`.
-/

namespace DynamiqsModel

/-! ### Shapes and broadcasting

`Shape` is the shape of an array, leading axis first.  `broadcastDim` and
`broadcastShapes` model the standard trailing-dimension broadcast rules used
by `jnp.broadcast_shapes` (external array backend, modelled from the spec:
"standard trailing-dimension broadcast rules"); a `none` result models the
error raised for incompatible shapes. -/

abbrev Shape := List Nat

def broadcastDim : Nat → Nat → Option Nat
  | 1, b => some b
  | a, 1 => some a
  | a, b => if a = b then some a else none

def broadcastRev : List Nat → List Nat → Option (List Nat)
  | [], s => some s
  | a :: as, [] => some (a :: as)
  | a :: as, b :: bs =>
      match broadcastDim a b, broadcastRev as bs with
      | some d, some rest => some (d :: rest)
      | _, _ => none

def broadcastShapes2 (s t : Shape) : Option Shape :=
  (broadcastRev s.reverse t.reverse).map List.reverse

def broadcastShapes (ss : List Shape) : Option Shape :=
  ss.foldl (fun acc s => acc.bind (fun a => broadcastShapes2 a s)) (some [])

/-! ### Batching layer of `_vectorized_jssesolve`

In the source, with `options.cartesian_batching = True` the function is
wrapped in `cartesian_vmap` with one vectorized-map level per batch dimension
of `H`, then of each jump operator in list order, then of `psi0`
(`nvmap = (H.ndim - 2, [L.ndim - 2 for L in Ls], psi0.ndim - 2, 0, ...)`);
with `cartesian_batching = False` all operands are broadcast to the common
batch shape `bshape = jnp.broadcast_shapes(...)` and a single `multi_vmap`
over that shape is applied.  The inner `_vectorized_clicks_jssesolve` then
maps over the trajectory keys, adding one trailing `ntrajs` axis.

`cartesian_vmap` and `multi_vmap` themselves live outside the excerpt.
Modelled from the spec: "each operand's batch dimensions are treated as
independent axes; the result has one output axis per operand's batch
dimensions, concatenated in order (H, then each jump operator, then initial
state)" and "all operands' batch shapes are broadcast to one common shape
(standard trailing-dimension broadcast rules) before a single
multi-dimensional vectorized map is applied".

`vectorizedLeadingShape cartesian Hb Lbs psib ntrajs` is the leading shape
(batch axes then trajectory axis) of the result, with `Hb`, `Lbs`, `psib` the
batch shapes of `H`, the jump operators, and `psi0`; `none` models the
configuration error raised for broadcast-incompatible shapes in shared
mode. -/

def cartesianLeadingShape (Hb : Shape) (Lbs : List Shape) (psib : Shape) : Shape :=
  Hb ++ Lbs.flatten ++ psib

def vectorizedLeadingShape (cartesian : Bool) (Hb : Shape) (Lbs : List Shape)
    (psib : Shape) (ntrajs : Nat) : Option Shape :=
  if cartesian then
    some (cartesianLeadingShape Hb Lbs psib ++ [ntrajs])
  else
    (broadcastShapes (Hb :: (Lbs ++ [psib]))).map (fun b => b ++ [ntrajs])

/-! ### Trajectory vectorization (`_vectorized_clicks_jssesolve`)

The single-trajectory integrator `_jssesolve_single_trajectory` takes the
arguments `(H, Ls, psi0, tsave, key, noclick, noclick_min_prob, exp_ops,
method, gradient, options)` and is wrapped in
`jax.vmap(f, in_axes, out_axes)` with
`in_axes = (None, None, None, None, 0, None, None, None, None, None, None)`:
only the key argument is mapped (axis 0), every other argument is broadcast.
`singleTrajInAxis` records this in-axis assignment per argument name.

The result pytree is vectorized over the fields `_saved`, `infos` and `keys`
(out axis 0) and not over the static configuration echo (out axis `None`);
this is `JSSESolveResult.out_axes()`, modelled from the spec: "Output axes
for per-trajectory/per-save-time fields are vectorized; method/gradient/
options (static configuration) are excluded from vectorization (their axis
mapping is `None`)".  `SingleResult` stands for one trajectory's result with
`saved`/`infos` the per-trajectory data, `final_state_norm` the norm of its
final state and `tsave` a stand-in for the shared (non-vectorized)
configuration echo; `VecResult` is the vectorized result.

The single-trajectory integrator internals (`integrator.run()`) are outside
the excerpt; the layer is therefore parameterized by an arbitrary function
`run : Key → Bool → ℚ → SingleResult` of the key, the `noclick` flag and
`noclick_min_prob` (the remaining arguments being fixed), which is faithful
to the source since `_vectorized_clicks_jssesolve` only orchestrates calls
to it. -/

abbrev Key := Nat

structure SingleResult where
  saved : ℚ
  infos : ℚ
  final_state_norm : ℚ
  tsave : ℚ
deriving DecidableEq

structure VecResult where
  saved : List ℚ
  infos : List ℚ
  keys : List Key
  tsave : ℚ
deriving DecidableEq

inductive SingleTrajArg where
  | H
  | Ls
  | psi0
  | tsave
  | key
  | noclick
  | noclick_min_prob
  | exp_ops
  | methodArg
  | gradientArg
  | optionsArg
deriving DecidableEq

def singleTrajInAxis : SingleTrajArg → Option Nat
  | .H => none
  | .Ls => none
  | .psi0 => none
  | .tsave => none
  | .key => some 0
  | .noclick => none
  | .noclick_min_prob => none
  | .exp_ops => none
  | .methodArg => none
  | .gradientArg => none
  | .optionsArg => none

def vmapTrajectories (run : Key → Bool → ℚ → SingleResult) (keys : List Key)
    (noclick : Bool) (noclickMinProb : ℚ) : VecResult :=
  ⟨keys.map (fun k => (run k noclick noclickMinProb).saved),
   keys.map (fun k => (run k noclick noclickMinProb).infos),
   keys,
   match keys with
   | [] => 0
   | k :: _ => (run k noclick noclickMinProb).tsave⟩

def vectorizedClicks (run : Key → Bool → ℚ → SingleResult)
    (keys : List Key) (smartSampling : Bool) : VecResult :=
  match smartSampling, keys with
  | true, k0 :: rest =>
      let noclickResult := run k0 true 0
      let clickResult :=
        vmapTrajectories run rest false (noclickResult.final_state_norm ^ 2)
      ⟨noclickResult.saved :: clickResult.saved,
       noclickResult.infos :: clickResult.infos,
       k0 :: clickResult.keys,
       noclickResult.tsave⟩
  | true, [] => vmapTrajectories run [] false 0
  | false, _ => vmapTrajectories run keys false 0

/-- A concrete single-trajectory integrator used to evaluate the layer on
concrete inputs. -/
def demoRun : Key → Bool → ℚ → SingleResult :=
  fun k noclick minProb => ⟨(k : ℚ) + minProb, if noclick then 1 else 0, 1 / 2, 7⟩

/-! ### Argument checks (`_check_jssesolve_args` and the `jssesolve` entry)

`check_shape(x, name, pattern)` is a validation helper outside the excerpt.
Modelled from the spec: a shape-pattern check "raised immediately, before any
integration work, with a message identifying the offending argument and
expected shape pattern".  A `CheckError.shape arg pattern` value carries the
offending argument's name and the expected pattern of its error message.
The pattern `(..., n, n)` accepts any shape with at least two dimensions
whose last two are equal, `(..., n, 1)` any shape with at least two
dimensions whose last is `1`, and `(n, n)` exactly two equal dimensions.

`checkJssesolveArgs` mirrors `_check_jssesolve_args`: it checks the shape of
`H`, then of each jump operator in order, then rejects an empty jump-operator
list with a message directing to `dq.sesolve()`, then checks the shape of
`psi0`, and finally, when `exp_ops` is given, the shape of each observable.

`jssesolveModel` mirrors the `jssesolve` entry point: `exp_ops` is first
normalized (an empty list becomes `None`, lines 242-243 of the source), the
arguments are checked, and only then is the integration (an arbitrary
function `integrate` standing for `_vectorized_jssesolve`) performed. -/

inductive CheckError where
  | shape (arg : String) (pattern : String)
  | emptyJumpOps (msg : String)
deriving DecidableEq

def emptyJumpOpsMsg : String :=
  "Argument `jump_ops` is an empty list, consider using `dq.sesolve()` to solve the Schrödinger equation."

def matchesSquareOp (s : Shape) : Bool :=
  match s.reverse with
  | a :: b :: _ => a == b
  | _ => false

def matchesKet (s : Shape) : Bool :=
  match s.reverse with
  | a :: _ :: _ => a == 1
  | _ => false

def matchesExpOp (s : Shape) : Bool :=
  match s with
  | [a, b] => a == b
  | _ => false

def checkLsShapes : Nat → List Shape → Except CheckError Unit
  | _, [] => Except.ok ()
  | i, L :: rest =>
      if matchesSquareOp L then checkLsShapes (i + 1) rest
      else Except.error
        (CheckError.shape ("jump_ops[" ++ toString i ++ "]") "(..., n, n)")

def checkEsShapes : Nat → List Shape → Except CheckError Unit
  | _, [] => Except.ok ()
  | i, E :: rest =>
      if matchesExpOp E then checkEsShapes (i + 1) rest
      else Except.error
        (CheckError.shape ("exp_ops[" ++ toString i ++ "]") "(n, n)")

def checkJssesolveArgs (H : Shape) (Ls : List Shape) (psi0 : Shape)
    (expOps : Option (List Shape)) : Except CheckError Unit :=
  if matchesSquareOp H = false then
    Except.error (CheckError.shape "H" "(..., n, n)")
  else match checkLsShapes 0 Ls with
  | Except.error e => Except.error e
  | Except.ok _ =>
    if Ls.isEmpty then Except.error (CheckError.emptyJumpOps emptyJumpOpsMsg)
    else if matchesKet psi0 = false then
      Except.error (CheckError.shape "psi0" "(..., n, 1)")
    else match expOps with
      | none => Except.ok ()
      | some Es => checkEsShapes 0 Es

def normalizeExpOps : Option (List Shape) → Option (List Shape)
  | none => none
  | some es => if 0 < es.length then some es else none

def jssesolveModel {R : Type} (H : Shape) (Ls : List Shape) (psi0 : Shape)
    (expOps : Option (List Shape)) (integrate : Option (List Shape) → R) :
    Except CheckError R :=
  match checkJssesolveArgs H Ls psi0 (normalizeExpOps expOps) with
  | Except.error e => Except.error e
  | Except.ok _ => Except.ok (integrate (normalizeExpOps expOps))

/-! ### Gradient support (`method.py`)

Each method class declares `SUPPORTED_GRADIENT`, a tuple of gradient classes;
`supports_gradient` is an `isinstance` check against that tuple and
`assert_supports_gradient` raises a `ValueError` naming the method class, the
offending gradient class and the supported classes when a non-`None` gradient
is not supported.

The gradient classes themselves live in `gradient.py`, outside the excerpt;
`method.py` imports `Autograd`, `CheckpointAutograd` and `ForwardAutograd`
from it.  Modelled from the spec: gradient strategies form an open set of
classes, represented by the three imported ones plus `GradientT.other name`
standing for any other `Gradient` subclass (which no `SUPPORTED_GRADIENT`
tuple of `method.py` contains). -/

inductive GradientT where
  | autograd
  | checkpointAutograd
  | forwardAutograd
  | other (name : String)
deriving DecidableEq

def gradientName : GradientT → String
  | .autograd => "Autograd"
  | .checkpointAutograd => "CheckpointAutograd"
  | .forwardAutograd => "ForwardAutograd"
  | .other name => name

inductive MethodClass where
  | expm
  | euler
  | eulerMaruyama
  | rouchon1
  | dopri5
  | dopri8
  | tsit5
  | kvaerno3
  | kvaerno5
  | event
deriving DecidableEq

def methodName : MethodClass → String
  | .expm => "Expm"
  | .euler => "Euler"
  | .eulerMaruyama => "EulerMaruyama"
  | .rouchon1 => "Rouchon1"
  | .dopri5 => "Dopri5"
  | .dopri8 => "Dopri8"
  | .tsit5 => "Tsit5"
  | .kvaerno3 => "Kvaerno3"
  | .kvaerno5 => "Kvaerno5"
  | .event => "Event"

def SUPPORTED_GRADIENT : MethodClass → List GradientT
  | .expm => [.autograd]
  | .euler => [.autograd, .checkpointAutograd, .forwardAutograd]
  | .eulerMaruyama => [.autograd]
  | .rouchon1 => [.autograd, .checkpointAutograd, .forwardAutograd]
  | .dopri5 => [.autograd, .checkpointAutograd, .forwardAutograd]
  | .dopri8 => [.autograd, .checkpointAutograd, .forwardAutograd]
  | .tsit5 => [.autograd, .checkpointAutograd, .forwardAutograd]
  | .kvaerno3 => [.autograd, .checkpointAutograd, .forwardAutograd]
  | .kvaerno5 => [.autograd, .checkpointAutograd, .forwardAutograd]
  | .event => [.autograd, .checkpointAutograd, .forwardAutograd]

def supports_gradient (m : MethodClass) (g : Option GradientT) : Bool :=
  match g with
  | none => false
  | some gt => gt ∈ SUPPORTED_GRADIENT m

def gradientErrorMsg (m : MethodClass) (g : GradientT) : String :=
  "Method `" ++ methodName m ++ "` does not support gradient `"
    ++ gradientName g ++ "` (supported gradient types: "
    ++ String.intercalate ", "
        ((SUPPORTED_GRADIENT m).map (fun x => "`" ++ gradientName x ++ "`"))
    ++ ")."

def assert_supports_gradient (m : MethodClass) (g : Option GradientT) :
    Except String Unit :=
  match g with
  | none => Except.ok ()
  | some gt =>
      if supports_gradient m (some gt) then Except.ok ()
      else Except.error (gradientErrorMsg m gt)

/-- Control flow of `_jssesolve_single_trajectory`: the method class is first
checked to be `Event` (`assert_method_supported`, a helper outside the
excerpt, modelled from the spec: an unsupported method "fails loudly"), then
the gradient support is asserted, and only then is the integrator constructed
and run (`runIntegrator` stands for the integrator construction and run). -/
def jssesolveSingleTraj (m : MethodClass) (g : Option GradientT)
    (runIntegrator : Unit → SingleResult) : Except String SingleResult :=
  if m ≠ MethodClass.event then
    Except.error "jssesolve: method not supported"
  else match assert_supports_gradient m g with
    | Except.error e => Except.error e
    | Except.ok _ => Except.ok (runIntegrator ())

/-! ### `Event` attribute delegation (`Event.__getattr__`)

`Event` holds a `noclick_method` (one of the six supported no-click ODE
method configurations), a `root_finder` and a `smart_sampling` flag.  Python
attribute access on an `Event` instance first finds the attributes defined on
`Event` itself; for any other attribute name `__getattr__` delegates the
lookup to the inner `noclick_method`.

`AdaptiveStepParams` carries the `_DEAdaptiveStep` fields; `Euler` is the
fixed-step method with the single field `dt`.  `methodAttr m a` is attribute
lookup on a no-click method value (`none` models `AttributeError`), and
`eventAttr e a` is attribute lookup on an `Event` instance. -/

structure AdaptiveStepParams where
  rtol : ℚ
  atol : ℚ
  safety_factor : ℚ
  min_factor : ℚ
  max_factor : ℚ
  max_steps : Nat
deriving DecidableEq

/-- The `_DEAdaptiveStep` default parameter values
`(1e-6, 1e-6, 0.9, 0.2, 5.0, 100_000)`. -/
def adaptiveDefaults : AdaptiveStepParams :=
  ⟨1 / 1000000, 1 / 1000000, 9 / 10, 1 / 5, 5, 100000⟩

inductive NoclickMethod where
  | euler (dt : ℚ)
  | dopri5 (p : AdaptiveStepParams)
  | dopri8 (p : AdaptiveStepParams)
  | tsit5 (p : AdaptiveStepParams)
  | kvaerno3 (p : AdaptiveStepParams)
  | kvaerno5 (p : AdaptiveStepParams)
deriving DecidableEq

inductive AttrName where
  | dt
  | rtol
  | atol
  | safety_factor
  | min_factor
  | max_factor
  | max_steps
  | noclick_method
  | root_finder
  | smart_sampling
deriving DecidableEq

inductive AttrValue where
  | num (q : ℚ)
  | natural (n : Nat)
  | boolean (b : Bool)
  | methodVal (m : NoclickMethod)
  | rootFinderVal (o : Option ℚ)
deriving DecidableEq

def adaptiveAttr (p : AdaptiveStepParams) : AttrName → Option AttrValue
  | .rtol => some (.num p.rtol)
  | .atol => some (.num p.atol)
  | .safety_factor => some (.num p.safety_factor)
  | .min_factor => some (.num p.min_factor)
  | .max_factor => some (.num p.max_factor)
  | .max_steps => some (.natural p.max_steps)
  | _ => none

def methodAttr : NoclickMethod → AttrName → Option AttrValue
  | .euler d, .dt => some (.num d)
  | .euler _, _ => none
  | .dopri5 p, a => adaptiveAttr p a
  | .dopri8 p, a => adaptiveAttr p a
  | .tsit5 p, a => adaptiveAttr p a
  | .kvaerno3 p, a => adaptiveAttr p a
  | .kvaerno5 p, a => adaptiveAttr p a

structure EventM where
  noclick_method : NoclickMethod
  root_finder : Option ℚ
  smart_sampling : Bool
deriving DecidableEq

/-- The attribute names defined on `Event` itself (its `eqx.Module`
fields). -/
def eventOwnAttrs : List AttrName := [.noclick_method, .root_finder, .smart_sampling]

def eventAttr (e : EventM) : AttrName → Option AttrValue
  | .noclick_method => some (.methodVal e.noclick_method)
  | .root_finder => some (.rootFinderVal e.root_finder)
  | .smart_sampling => some (.boolean e.smart_sampling)
  | a => methodAttr e.noclick_method a

/-- The default `Event()` configuration: `noclick_method = Tsit5()`,
`root_finder = None`, `smart_sampling = False`. -/
def eventDefault : EventM := ⟨.tsit5 adaptiveDefaults, none, false⟩

/-! ### Time-dependent operators (`time_array` / `TimeQArray`)

The time-array implementation is outside the excerpt (only its tests are in
it).  Modelled from the spec: "**TimeOperator**: a function `t ↦ Matrix`
plus static batch shape; supports `+`, scalar/elementwise `*`, adjoint
(conjugate transpose) ... Invariant: evaluating at any `t` returns a matrix
of the declared shape."  Matrices are over the complex rationals `Cplx`; the
declared shape is carried by the type — a `TimeOp m k` evaluates to an
`m × k` matrix at every time, so the shape invariant holds by typing.
`constantTimeOp` is the `ConstantTimeArray` of the tests (a constant
function of time). -/

structure Cplx where
  re : ℚ
  im : ℚ
deriving DecidableEq

def Cplx.add (a b : Cplx) : Cplx := ⟨a.re + b.re, a.im + b.im⟩

def Cplx.mul (a b : Cplx) : Cplx :=
  ⟨a.re * b.re - a.im * b.im, a.re * b.im + a.im * b.re⟩

def Cplx.negate (a : Cplx) : Cplx := ⟨-a.re, -a.im⟩

def Cplx.conj (a : Cplx) : Cplx := ⟨a.re, -a.im⟩

instance : Add Cplx := ⟨Cplx.add⟩

instance : Mul Cplx := ⟨Cplx.mul⟩

instance : Neg Cplx := ⟨Cplx.negate⟩

abbrev TMatrix (m k : Nat) := Fin m → Fin k → Cplx

def conjTransposeM {m k : Nat} (A : TMatrix m k) : TMatrix k m :=
  fun i j => (A j i).conj

structure TimeOp (m k : Nat) where
  f : ℚ → TMatrix m k

def TimeOp.add {m k : Nat} (x y : TimeOp m k) : TimeOp m k :=
  ⟨fun t i j => x.f t i j + y.f t i j⟩

def TimeOp.smul {m k : Nat} (c : Cplx) (x : TimeOp m k) : TimeOp m k :=
  ⟨fun t i j => c * x.f t i j⟩

def TimeOp.mulScalar {m k : Nat} (x : TimeOp m k) (c : Cplx) : TimeOp m k :=
  ⟨fun t i j => x.f t i j * c⟩

def TimeOp.mulElem {m k : Nat} (x : TimeOp m k) (c : TMatrix m k) : TimeOp m k :=
  ⟨fun t i j => x.f t i j * c i j⟩

def TimeOp.rmulElem {m k : Nat} (c : TMatrix m k) (x : TimeOp m k) : TimeOp m k :=
  ⟨fun t i j => c i j * x.f t i j⟩

def TimeOp.negate {m k : Nat} (x : TimeOp m k) : TimeOp m k :=
  ⟨fun t i j => -(x.f t i j)⟩

def TimeOp.adjoint {m k : Nat} (x : TimeOp m k) : TimeOp k m :=
  ⟨fun t i j => (x.f t j i).conj⟩

def constantTimeOp {m k : Nat} (a : TMatrix m k) : TimeOp m k := ⟨fun _ => a⟩

/-- The matrix `[[1+1j, 2+2j], [3+3j, 4+4j]]` of
`TestConstantTimeArray.test_adjoint`. -/
def adjTestMat : TMatrix 2 2 :=
  ![![⟨1, 1⟩, ⟨2, 2⟩], ![⟨3, 3⟩, ⟨4, 4⟩]]

/-! ### Gradient test harness (`SolverTester._test_gradient`)

`_test_gradient` computes the state-based gradients (`grads_ysave`,
`true_grads_ysave`) and asserts their closeness, then computes the
expectation-based gradients (`grads_Esave`, `true_grads_Esave`) — and, as
written at its last line, asserts `assert_allclose(true_grads_ysave,
grads_ysave)` a second time instead of comparing the expectation-based pair.
`close` stands for the `jnp.allclose`-based pytree comparison;
`testGradientPasses` is the pair of assertions translated from the source,
and `testGradientIntended` is a second definition following the spec's words
("the second assertion compares the expectation-based gradients, grads_Esave
vs true_grads_Esave"), for comparison with the source. -/

structure GradScenario where
  true_grads_ysave : ℚ
  grads_ysave : ℚ
  true_grads_Esave : ℚ
  grads_Esave : ℚ
deriving DecidableEq

def testGradientPasses (close : ℚ → ℚ → Bool) (s : GradScenario) : Bool :=
  close s.true_grads_ysave s.grads_ysave
    && close s.true_grads_ysave s.grads_ysave

def testGradientIntended (close : ℚ → ℚ → Bool) (s : GradScenario) : Bool :=
  close s.true_grads_ysave s.grads_ysave
    && close s.true_grads_Esave s.grads_Esave

def exactClose : ℚ → ℚ → Bool := fun a b => a == b

end DynamiqsModel

namespace DynamiqsModel

/-- C1: with cartesian batching (the default) the leading output axes are the
batch axes of `H`, then those of each jump operator in list order, then those
of the initial state, then the trajectory axis (in particular `H` of batch
shape `(2,)`, one jump operator of batch shape `(3,)`, unbatched state gives
`(2, 3, ntrajs)`); with shared batching the batch shapes are broadcast by the
trailing-dimension rules to one common shape followed by the trajectory axis,
and broadcast-incompatible shapes yield the configuration error (`none`). -/
theorem jssesolve_batching_leading_shape :
    (∀ n : Nat, vectorizedLeadingShape true [2] [[3]] [] n = some [2, 3, n])
    ∧ (∀ (Hb psib : Shape) (Lbs : List Shape) (n : Nat),
        vectorizedLeadingShape true Hb Lbs psib n
          = some (Hb ++ Lbs.flatten ++ psib ++ [n]))
    ∧ (∀ (Hb psib common : Shape) (Lbs : List Shape) (n : Nat),
        broadcastShapes (Hb :: (Lbs ++ [psib])) = some common →
        vectorizedLeadingShape false Hb Lbs psib n = some (common ++ [n]))
    ∧ (∀ (Hb psib : Shape) (Lbs : List Shape) (n : Nat),
        broadcastShapes (Hb :: (Lbs ++ [psib])) = none →
        vectorizedLeadingShape false Hb Lbs psib n = none) := by
  refine ⟨fun n => rfl, fun Hb psib Lbs n => by
    simp [vectorizedLeadingShape, cartesianLeadingShape], ?_, ?_⟩
  · intro Hb psib common Lbs n h
    simp [vectorizedLeadingShape, h]
  · intro Hb psib Lbs n h
    simp [vectorizedLeadingShape, h]

/-- Witness for C1 at concrete shapes: batch shapes `(2, 1)`, `[(3,)]`, `()`
broadcast to the common shape `(2, 3)` in shared mode, and the incompatible
batch shapes `(2,)`, `[(3,)]`, `()` yield the configuration error. -/
theorem jssesolve_batching_leading_shape_witness :
    vectorizedLeadingShape false [2, 1] [[3]] [] 5 = some [2, 3, 5]
    ∧ vectorizedLeadingShape false [2] [[3]] [] 5 = none :=
  ⟨jssesolve_batching_leading_shape.2.2.1 [2, 1] [] [2, 3] [[3]] 5 (by decide),
   jssesolve_batching_leading_shape.2.2.2 [2] [] [[3]] 5 (by decide)⟩

/-- C2: with the Event method and `smart_sampling = True` and at least one
key, the first key is consumed for a single no-click trajectory run with
`noclick = true` and minimum click probability `0`; every remaining key's
trajectory is run with its threshold floor set to the squared final-state
norm of the no-click trajectory; each per-trajectory field of the result has
the no-click result prepended at trajectory index 0 followed by the click
trajectories in key order, and each non-per-trajectory field equals the
corresponding field of the no-click result. -/
theorem smart_sampling_concat :
    ∀ (run : Key → Bool → ℚ → SingleResult) (k0 : Key) (rest : List Key),
      vectorizedClicks run (k0 :: rest) true
        = ⟨(run k0 true 0).saved
             :: rest.map
                (fun k => (run k false ((run k0 true 0).final_state_norm ^ 2)).saved),
           (run k0 true 0).infos
             :: rest.map
                (fun k => (run k false ((run k0 true 0).final_state_norm ^ 2)).infos),
           k0 :: rest,
           (run k0 true 0).tsave⟩ :=
  fun _ _ _ => rfl

/-- C3: the single-trajectory integrator is mapped only over the trajectory
key array (axis 0 of the `key` argument); `H`, the jump operators, the
initial state, the save times, the observables, the method, the gradient and
the options all have in-axis `None` (shared across the trajectory axis), and
the number of keys determines the number of trajectories in the vectorized
output. -/
theorem trajectory_vmap_axes :
    singleTrajInAxis SingleTrajArg.key = some 0
    ∧ (∀ a : SingleTrajArg, a ≠ SingleTrajArg.key → singleTrajInAxis a = none)
    ∧ (∀ (run : Key → Bool → ℚ → SingleResult) (keys : List Key)
        (noclick : Bool) (minProb : ℚ),
        (vmapTrajectories run keys noclick minProb).keys = keys
        ∧ (vmapTrajectories run keys noclick minProb).saved.length = keys.length
        ∧ (vmapTrajectories run keys noclick minProb).infos.length
            = keys.length) := by
  refine ⟨rfl, ?_, ?_⟩
  · intro a h
    cases a <;> simp_all [singleTrajInAxis]
  · intro run keys noclick minProb
    exact ⟨rfl, by simp [vmapTrajectories], by simp [vmapTrajectories]⟩

/-- Witness for C3: the method argument (static configuration) is not
vectorized. -/
theorem trajectory_vmap_axes_witness :
    singleTrajInAxis SingleTrajArg.methodArg = none :=
  trajectory_vmap_axes.2.1 SingleTrajArg.methodArg (by decide)

/-- C6: each trajectory of the vectorized run is a deterministic function of
its own key together with the shared inputs: trajectory `i`'s saved data is
exactly the single-trajectory function applied to `keys[i]`, so two runs
whose key arrays agree at index `i` produce identical results at trajectory
`i` (and two runs with identical inputs produce identical results); there is
no shared RNG state between trajectories. -/
theorem trajectory_determinism :
    (∀ (run : Key → Bool → ℚ → SingleResult) (keys : List Key) (noclick : Bool)
        (minProb : ℚ) (i : Nat),
        (vmapTrajectories run keys noclick minProb).saved[i]?
          = (keys[i]?).map (fun k => (run k noclick minProb).saved))
    ∧ (∀ (run : Key → Bool → ℚ → SingleResult) (keys1 keys2 : List Key)
        (noclick : Bool) (minProb : ℚ) (i : Nat),
        keys1[i]? = keys2[i]? →
        (vmapTrajectories run keys1 noclick minProb).saved[i]?
          = (vmapTrajectories run keys2 noclick minProb).saved[i]?) := by
  have h1 : ∀ (run : Key → Bool → ℚ → SingleResult) (keys : List Key)
      (noclick : Bool) (minProb : ℚ) (i : Nat),
      (vmapTrajectories run keys noclick minProb).saved[i]?
        = (keys[i]?).map (fun k => (run k noclick minProb).saved) := by
    intro run keys noclick minProb i
    simp [vmapTrajectories]
  exact ⟨h1, fun run keys1 keys2 noclick minProb i h => by rw [h1, h1, h]⟩

/-- Witness for C6: two key arrays agreeing at index 1 give the same
trajectory-1 result under the concrete integrator `demoRun`. -/
theorem trajectory_determinism_witness :
    (vmapTrajectories demoRun [5, 6] false 0).saved[1]?
      = (vmapTrajectories demoRun [9, 6] false 0).saved[1]? :=
  trajectory_determinism.2 demoRun [5, 6] [9, 6] false 0 1 (by decide)

/-- If some jump operator's shape is rejected, `checkLsShapes` returns a
shape error naming `jump_ops[j]` for some index `j`. -/
theorem checkLsShapes_mem_error : ∀ (i : Nat) (Ls : List Shape),
    (∃ L ∈ Ls, matchesSquareOp L = false) →
    ∃ j : Nat, checkLsShapes i Ls
      = Except.error
          (CheckError.shape ("jump_ops[" ++ toString j ++ "]") "(..., n, n)")
  | _, [], h => absurd h (by simp)
  | i, L :: rest, h => by
      by_cases hL : matchesSquareOp L = true
      · obtain ⟨j, hj⟩ := checkLsShapes_mem_error (i + 1) rest (by
          rcases h with ⟨L', hmem, hbad⟩
          rcases List.mem_cons.mp hmem with rfl | hmem'
          · rw [hL] at hbad
            exact absurd hbad (by simp)
          · exact ⟨L', hmem', hbad⟩)
        exact ⟨j, by simp [checkLsShapes, hL, hj]⟩
      · exact ⟨i, by simp [checkLsShapes, hL]⟩

/-- If some observable's shape is rejected, `checkEsShapes` returns a shape
error naming `exp_ops[j]` for some index `j`. -/
theorem checkEsShapes_mem_error : ∀ (i : Nat) (Es : List Shape),
    (∃ E ∈ Es, matchesExpOp E = false) →
    ∃ j : Nat, checkEsShapes i Es
      = Except.error
          (CheckError.shape ("exp_ops[" ++ toString j ++ "]") "(n, n)")
  | _, [], h => absurd h (by simp)
  | i, E :: rest, h => by
      by_cases hE : matchesExpOp E = true
      · obtain ⟨j, hj⟩ := checkEsShapes_mem_error (i + 1) rest (by
          rcases h with ⟨E', hmem, hbad⟩
          rcases List.mem_cons.mp hmem with rfl | hmem'
          · rw [hE] at hbad
            exact absurd hbad (by simp)
          · exact ⟨E', hmem', hbad⟩)
        exact ⟨j, by simp [checkEsShapes, hE, hj]⟩
      · exact ⟨i, by simp [checkEsShapes, hE]⟩

/-- C4: each rejected configuration (empty jump-operator list, `H` not of
shape `(..., n, n)`, a jump operator not of shape `(..., n, n)`, initial
state not of shape `(..., n, 1)`, an observable not of shape `(n, n)`) makes
the check fail with an error identifying the offending argument and the
expected shape pattern; the empty-jump-operator message directs to
`dq.sesolve()`; and a check failure makes the whole call fail with that
error, independently of the integration function, i.e. before any
integration work. -/
theorem jssesolve_arg_checks :
    (∀ (H psi0 : Shape) (e : Option (List Shape)),
        matchesSquareOp H = true →
        checkJssesolveArgs H [] psi0 e
          = Except.error (CheckError.emptyJumpOps emptyJumpOpsMsg))
    ∧ emptyJumpOpsMsg
        = "Argument `jump_ops` is an empty list, consider using `dq.sesolve()` to solve the Schrödinger equation."
    ∧ (∀ (H psi0 : Shape) (Ls : List Shape) (e : Option (List Shape)),
        matchesSquareOp H = false →
        checkJssesolveArgs H Ls psi0 e
          = Except.error (CheckError.shape "H" "(..., n, n)"))
    ∧ (∀ (H psi0 : Shape) (Ls : List Shape) (e : Option (List Shape)),
        matchesSquareOp H = true →
        (∃ L ∈ Ls, matchesSquareOp L = false) →
        ∃ j : Nat, checkJssesolveArgs H Ls psi0 e
          = Except.error
              (CheckError.shape ("jump_ops[" ++ toString j ++ "]") "(..., n, n)"))
    ∧ (∀ (H psi0 L0 : Shape) (Ls : List Shape) (e : Option (List Shape)),
        matchesSquareOp H = true →
        checkLsShapes 0 (L0 :: Ls) = Except.ok () →
        matchesKet psi0 = false →
        checkJssesolveArgs H (L0 :: Ls) psi0 e
          = Except.error (CheckError.shape "psi0" "(..., n, 1)"))
    ∧ (∀ (H psi0 L0 : Shape) (Ls Es : List Shape),
        matchesSquareOp H = true →
        checkLsShapes 0 (L0 :: Ls) = Except.ok () →
        matchesKet psi0 = true →
        (∃ E ∈ Es, matchesExpOp E = false) →
        ∃ j : Nat, checkJssesolveArgs H (L0 :: Ls) psi0 (some Es)
          = Except.error
              (CheckError.shape ("exp_ops[" ++ toString j ++ "]") "(n, n)"))
    ∧ (∀ {R : Type} (H psi0 : Shape) (Ls : List Shape)
        (e : Option (List Shape)) (err : CheckError)
        (integrate : Option (List Shape) → R),
        checkJssesolveArgs H Ls psi0 (normalizeExpOps e) = Except.error err →
        jssesolveModel H Ls psi0 e integrate = Except.error err) := by
  refine ⟨?_, rfl, ?_, ?_, ?_, ?_, ?_⟩
  · intro H psi0 e hH
    simp [checkJssesolveArgs, hH, checkLsShapes]
  · intro H psi0 Ls e hH
    simp [checkJssesolveArgs, hH]
  · intro H psi0 Ls e hH hbad
    obtain ⟨j, hj⟩ := checkLsShapes_mem_error 0 Ls hbad
    exact ⟨j, by simp [checkJssesolveArgs, hH, hj]⟩
  · intro H psi0 L0 Ls e hH hLs hpsi
    simp [checkJssesolveArgs, hH, hLs, hpsi]
  · intro H psi0 L0 Ls Es hH hLs hpsi hbad
    obtain ⟨j, hj⟩ := checkEsShapes_mem_error 0 Es hbad
    exact ⟨j, by simp [checkJssesolveArgs, hH, hLs, hpsi, hj]⟩
  · intro R H psi0 Ls e err integrate herr
    simp [jssesolveModel, herr]

/-- Witness for C4 at concrete shapes (dimension `n = 2`): an empty
jump-operator list is rejected with the message directing to `dq.sesolve()`,
a non-square `H` is rejected naming `H`, a bad initial state is rejected
naming `psi0`, a bad observable is rejected naming `exp_ops[0]`, and the
empty-list failure propagates through the whole call unchanged for the
constant integration function. -/
theorem jssesolve_arg_checks_witness :
    checkJssesolveArgs [2, 2] [] [2, 1] none
      = Except.error (CheckError.emptyJumpOps emptyJumpOpsMsg)
    ∧ checkJssesolveArgs [2, 3] [[2, 2]] [2, 1] none
      = Except.error (CheckError.shape "H" "(..., n, n)")
    ∧ checkJssesolveArgs [2, 2] [[2, 2]] [2, 3] none
      = Except.error (CheckError.shape "psi0" "(..., n, 1)")
    ∧ (∃ j : Nat, checkJssesolveArgs [2, 2] [[2, 2]] [2, 1] (some [[2, 3]])
        = Except.error
            (CheckError.shape ("exp_ops[" ++ toString j ++ "]") "(n, n)"))
    ∧ jssesolveModel [2, 2] [] [2, 1] none (fun _ => (0 : ℚ))
      = Except.error (CheckError.emptyJumpOps emptyJumpOpsMsg) :=
  ⟨jssesolve_arg_checks.1 [2, 2] [2, 1] none (by decide),
   jssesolve_arg_checks.2.2.1 [2, 3] [2, 1] [[2, 2]] none (by decide),
   jssesolve_arg_checks.2.2.2.2.1 [2, 2] [2, 3] [2, 2] [] none (by decide)
     rfl (by decide),
   jssesolve_arg_checks.2.2.2.2.2.1 [2, 2] [2, 1] [2, 2] [] [[2, 3]]
     (by decide) rfl (by decide) ⟨[2, 3], by decide⟩,
   jssesolve_arg_checks.2.2.2.2.2.2 [2, 2] [2, 1] [] none
     (CheckError.emptyJumpOps emptyJumpOpsMsg) (fun _ => (0 : ℚ))
     (jssesolve_arg_checks.1 [2, 2] [2, 1] none (by decide))⟩

/-- C9: an empty `exp_ops` list is normalized to `None` before any check, so
the whole call behaves exactly as if `exp_ops` were `None`: no observable
shape check is performed and the integration receives `None` (no expectation
values are computed). -/
theorem empty_exp_ops_like_none :
    normalizeExpOps (some []) = none
    ∧ (∀ (H psi0 : Shape) (Ls : List Shape),
        checkJssesolveArgs H Ls psi0 (normalizeExpOps (some []))
          = checkJssesolveArgs H Ls psi0 none)
    ∧ (∀ {R : Type} (H psi0 : Shape) (Ls : List Shape)
        (integrate : Option (List Shape) → R),
        jssesolveModel H Ls psi0 (some []) integrate
          = jssesolveModel H Ls psi0 none integrate) :=
  ⟨rfl, fun _ _ _ => rfl, fun _ _ _ _ => rfl⟩

/-- C5: for every method class, requesting a non-`None` gradient outside its
declared `SUPPORTED_GRADIENT` set raises the `ValueError` naming the method
class, the offending gradient class and the supported classes (shown
concretely for `Event` and a foreign `Adjoint` gradient class), while every
gradient in the supported set (and a `None` gradient) passes the check; and
in the single-trajectory solve the check fires before the integrator is
constructed: a failing check yields the error whatever the integrator
does. -/
theorem gradient_support_check :
    (∀ (m : MethodClass) (gt : GradientT), gt ∈ SUPPORTED_GRADIENT m →
        assert_supports_gradient m (some gt) = Except.ok ())
    ∧ (∀ (m : MethodClass) (gt : GradientT), gt ∉ SUPPORTED_GRADIENT m →
        assert_supports_gradient m (some gt)
          = Except.error (gradientErrorMsg m gt))
    ∧ (∀ m : MethodClass, assert_supports_gradient m none = Except.ok ())
    ∧ gradientErrorMsg MethodClass.event (GradientT.other "Adjoint")
        = "Method `Event` does not support gradient `Adjoint` (supported gradient types: `Autograd`, `CheckpointAutograd`, `ForwardAutograd`)."
    ∧ (∀ (g : Option GradientT) (e : String),
        assert_supports_gradient MethodClass.event g = Except.error e →
        ∀ runIntegrator : Unit → SingleResult,
          jssesolveSingleTraj MethodClass.event g runIntegrator
            = Except.error e) := by
  refine ⟨?_, ?_, fun m => rfl, by decide, ?_⟩
  · intro m gt h
    simp [assert_supports_gradient, supports_gradient, h]
  · intro m gt h
    simp [assert_supports_gradient, supports_gradient, h]
  · intro g e herr runIntegrator
    simp [jssesolveSingleTraj, herr]

/-- Witness for C5: `ForwardAutograd` is rejected by `Expm` with the message
naming both, `Autograd` passes for `Euler`, and the rejection of a foreign
gradient class by `Event` propagates through the single-trajectory solve for
a concrete integrator. -/
theorem gradient_support_check_witness :
    assert_supports_gradient MethodClass.expm (some GradientT.forwardAutograd)
      = Except.error
          (gradientErrorMsg MethodClass.expm GradientT.forwardAutograd)
    ∧ assert_supports_gradient MethodClass.euler (some GradientT.autograd)
      = Except.ok ()
    ∧ jssesolveSingleTraj MethodClass.event (some (GradientT.other "Adjoint"))
        (fun _ => ⟨0, 0, 0, 0⟩)
      = Except.error
          (gradientErrorMsg MethodClass.event (GradientT.other "Adjoint")) :=
  ⟨gradient_support_check.2.1 MethodClass.expm GradientT.forwardAutograd
     (by decide),
   gradient_support_check.1 MethodClass.euler GradientT.autograd (by decide),
   gradient_support_check.2.2.2.2 (some (GradientT.other "Adjoint"))
     (gradientErrorMsg MethodClass.event (GradientT.other "Adjoint"))
     (gradient_support_check.2.1 MethodClass.event (GradientT.other "Adjoint")
       (by decide))
     (fun _ => ⟨0, 0, 0, 0⟩)⟩

/-- C10: for every `Event` configuration and every attribute name not defined
on `Event` itself (not one of `noclick_method`, `root_finder`,
`smart_sampling`), attribute access on the `Event` instance is delegated to
the inner `noclick_method` and returns that inner method's attribute value:
`Event(noclick_method = m).attr = m.attr`. -/
theorem event_attr_delegation :
    ∀ (e : EventM) (a : AttrName), a ∉ eventOwnAttrs →
      eventAttr e a = methodAttr e.noclick_method a := by
  intro e a h
  cases a <;> simp_all [eventAttr, eventOwnAttrs]

/-- Witness for C10: on the default `Event()` (inner method `Tsit5()`),
`rtol` is delegated to the inner method and yields the `Tsit5` default
`1e-6`; likewise `dt` is delegated and is absent on `Tsit5`. -/
theorem event_attr_delegation_witness :
    eventAttr eventDefault AttrName.rtol
      = methodAttr (NoclickMethod.tsit5 adaptiveDefaults) AttrName.rtol
    ∧ methodAttr (NoclickMethod.tsit5 adaptiveDefaults) AttrName.rtol
      = some (AttrValue.num (1 / 1000000))
    ∧ eventAttr eventDefault AttrName.dt
      = methodAttr (NoclickMethod.tsit5 adaptiveDefaults) AttrName.dt :=
  ⟨event_attr_delegation eventDefault AttrName.rtol (by decide), rfl,
   event_attr_delegation eventDefault AttrName.dt (by decide)⟩

/-- Multiplication of complex rationals is commutative (so left and right
scalar multiplication of a time operator agree). -/
theorem Cplx.mul_comm (a b : Cplx) : a * b = b * a := by
  show a.mul b = b.mul a
  unfold Cplx.mul
  congr 1 <;> ring

/-- C7: time-operator algebra is pointwise in time: for time operators `x`,
`y` of the same declared shape, a scalar `c`, an elementwise factor matrix
`A`, and every time `t`, `(x + y)(t) = x(t) + y(t)` entrywise,
`(c * x)(t) = c * x(t)` with left and right multiplication agreeing
(`c * x = x * c`, and the same for elementwise factors), `(-x)(t) = -x(t)`,
and `x.adjoint()(t)` is the conjugate transpose of `x(t)` (shown concretely
on the matrix of `TestConstantTimeArray.test_adjoint`); evaluation at any
`t` returns a matrix of the declared shape by the type of `TimeOp.f`. -/
theorem time_operator_pointwise_algebra :
    (∀ (m k : Nat) (x y : TimeOp m k) (t : ℚ) (i : Fin m) (j : Fin k),
        (x.add y).f t i j = x.f t i j + y.f t i j)
    ∧ (∀ (m k : Nat) (c : Cplx) (x : TimeOp m k) (t : ℚ) (i : Fin m)
        (j : Fin k), (TimeOp.smul c x).f t i j = c * x.f t i j)
    ∧ (∀ (m k : Nat) (c : Cplx) (x : TimeOp m k),
        TimeOp.smul c x = x.mulScalar c)
    ∧ (∀ (m k : Nat) (A : TMatrix m k) (x : TimeOp m k) (t : ℚ) (i : Fin m)
        (j : Fin k), (x.mulElem A).f t i j = x.f t i j * A i j)
    ∧ (∀ (m k : Nat) (A : TMatrix m k) (x : TimeOp m k),
        x.mulElem A = TimeOp.rmulElem A x)
    ∧ (∀ (m k : Nat) (x : TimeOp m k) (t : ℚ) (i : Fin m) (j : Fin k),
        x.negate.f t i j = -(x.f t i j))
    ∧ (∀ (m k : Nat) (x : TimeOp m k) (t : ℚ),
        x.adjoint.f t = conjTransposeM (x.f t))
    ∧ (constantTimeOp adjTestMat).adjoint.f 0
        = ![![⟨1, -1⟩, ⟨3, -3⟩], ![⟨2, -2⟩, ⟨4, -4⟩]] := by
  refine ⟨fun _ _ _ _ _ _ _ => rfl, fun _ _ _ _ _ _ _ => rfl, ?_,
    fun _ _ _ _ _ _ _ => rfl, ?_, fun _ _ _ _ _ _ => rfl,
    fun _ _ _ _ => rfl, ?_⟩
  · intro m k c x
    unfold TimeOp.smul TimeOp.mulScalar
    congr 1
    funext t i j
    exact Cplx.mul_comm c (x.f t i j)
  · intro m k A x
    unfold TimeOp.mulElem TimeOp.rmulElem
    congr 1
    funext t i j
    exact Cplx.mul_comm (x.f t i j) (A i j)
  · funext i j
    fin_cases i <;> fin_cases j <;> rfl

/-- C8: the gradient-checking routine as written does not perform the
expectation-based comparison: its outcome depends only on the state-based
pair, so a scenario whose expectation-based gradients disagree (`0` vs `1`)
while its state-based gradients agree passes the source's assertions,
although the pair of independent checks described by the spec fails it. -/
theorem test_gradient_duplicate_assertion :
    testGradientPasses exactClose ⟨0, 0, 0, 1⟩ = true
    ∧ testGradientIntended exactClose ⟨0, 0, 0, 1⟩ = false
    ∧ (∀ (close : ℚ → ℚ → Bool) (s : GradScenario),
        testGradientPasses close s
          = close s.true_grads_ysave s.grads_ysave) := by
  refine ⟨rfl, ?_, ?_⟩
  · show (exactClose 0 0 && exactClose 0 1) = false
    norm_num [exactClose]
  · intro close s
    simp [testGradientPasses]

end DynamiqsModel
